import Mathlib

/-!
Verification of the ResGuard resource-allocation core (src/res.py) against its
natural-language specification.

Shallow embedding notes:
* Quantities are Python floats in the source; they are embedded as exact
  rationals (ℚ), the idealisation the spec itself uses (a Quantity is a
  non-negative real number).
* The global dictionaries `resources`, `allocation`, `max_claim` of res.py
  have the fixed key sets {CPU, Memory, Disk, Network} and
  {admin, User1, User2, User3}; they are embedded as records (`ResVec`,
  `UserMap ResVec`) indexed by enumeration types.  Dictionary subscripts
  become `get`, subscript assignment becomes `set`.  The iteration order of
  the Python dicts (insertion order) is `userList` and `resList`.
* `update_system_resources` (res.py lines 36-55) reads host figures from
  psutil and overwrites the `resources` dictionary.  The probe is external to
  the core, so every operation that calls it takes the probed capacity vector
  as an explicit argument `probe` and overwrites the available vector with
  it, exactly where the source calls `update_system_resources()`.
* Log records written through `log_event` are modelled as a `List LogEvent`
  returned by each operation; timestamps and message formatting are dropped,
  the payload relevant to the claims (which event fired, with which safe
  sequence) is kept.
-/

namespace ResGuard

/-- The four registered consumers, in the insertion order of the `users`
dictionary of res.py line 23: admin, User1, User2, User3. -/
inductive User : Type
  | admin
  | user1
  | user2
  | user3
deriving DecidableEq, Repr

/-- The four resource kinds, in the insertion order of the `resources`
dictionary of res.py lines 17-22: CPU, Memory, Disk, Network. -/
inductive Res : Type
  | CPU
  | Memory
  | Disk
  | Network
deriving DecidableEq, Repr

/-- Registration order of consumers (Python dict iteration order). -/
def userList : List User := [.admin, .user1, .user2, .user3]

/-- Fixed order of resource kinds (Python dict iteration order). -/
def resList : List Res := [.CPU, .Memory, .Disk, .Network]

/-- A per-kind vector of quantities: one Python dict keyed by the four
resource kinds. -/
@[ext]
structure ResVec : Type where
  cpu : ℚ
  memory : ℚ
  disk : ℚ
  network : ℚ
deriving DecidableEq, Repr

/-- Dictionary read `v[r]`. -/
def ResVec.get (v : ResVec) : Res → ℚ
  | .CPU => v.cpu
  | .Memory => v.memory
  | .Disk => v.disk
  | .Network => v.network

/-- Dictionary write `v[r] = x`. -/
def ResVec.set (v : ResVec) : Res → ℚ → ResVec
  | .CPU, x => { v with cpu := x }
  | .Memory, x => { v with memory := x }
  | .Disk, x => { v with disk := x }
  | .Network, x => { v with network := x }

/-- Pointwise sum, the `for res in resources: work[res] += allocation[user][res]`
loop of res.py lines 165-166. -/
def ResVec.addVec (v w : ResVec) : ResVec :=
  ⟨v.cpu + w.cpu, v.memory + w.memory, v.disk + w.disk, v.network + w.network⟩

/-- The all-zero vector. -/
def ResVec.zero : ResVec := ⟨0, 0, 0, 0⟩

/-- A per-consumer table: one Python dict keyed by the four users. -/
@[ext]
structure UserMap (α : Type) : Type where
  admin : α
  user1 : α
  user2 : α
  user3 : α
deriving DecidableEq, Repr

/-- Dictionary read `m[u]`. -/
def UserMap.get {α : Type} (m : UserMap α) : User → α
  | .admin => m.admin
  | .user1 => m.user1
  | .user2 => m.user2
  | .user3 => m.user3

/-- Dictionary write `m[u] = x`. -/
def UserMap.set {α : Type} (m : UserMap α) : User → α → UserMap α
  | .admin, x => { m with admin := x }
  | .user1, x => { m with user1 := x }
  | .user2, x => { m with user2 := x }
  | .user3, x => { m with user3 := x }

/-- The constant table. -/
def UserMap.const {α : Type} (x : α) : UserMap α := ⟨x, x, x, x⟩

/-- The mutable global state of res.py: the `resources` (available),
`allocation` and `max_claim` dictionaries. -/
@[ext]
structure SysState : Type where
  resources : ResVec
  allocation : UserMap ResVec
  max_claim : UserMap ResVec
deriving DecidableEq, Repr

/-- The cell read `allocation[u][r]` (likewise for `max_claim`). -/
def cell (m : UserMap ResVec) (u : User) (r : Res) : ℚ :=
  (m.get u).get r

/-- The cell write `m[u][r] = v`. -/
def setCell (m : UserMap ResVec) (u : User) (r : Res) (v : ℚ) : UserMap ResVec :=
  m.set u ((m.get u).set r v)

/-- Per-kind request increment / release decrement, res.py lines 189-197 and
240-248 (the two tables in the source are identical). -/
def allocation_amount : Res → ℚ
  | .CPU => 1/10
  | .Memory => 1/2
  | .Disk => 1
  | .Network => 5

/-! ### The Banker check of res.py, `is_safe_state` (lines 131-177) -/

/-- The need of a consumer for a kind: `max_claim - allocation`
(res.py line 147). -/
def needQ (st : SysState) (u : User) (r : Res) : ℚ :=
  cell st.max_claim u r - cell st.allocation u r

/-- The `can_allocate` test of res.py lines 157-161: every need of the
consumer fits in the current work vector. -/
def canAllocate (st : SysState) (w : ResVec) (u : User) : Bool :=
  resList.all fun r => decide (needQ st u r ≤ w.get r)

/-- Loop state of the Banker check: the work vector, the finish map, the
accumulated safe sequence, and the per-pass `found` flag (res.py
lines 139-153). -/
structure BSt : Type where
  work : ResVec
  finish : UserMap Bool
  seq : List User
  found : Bool
deriving DecidableEq, Repr

/-- Body of the inner `for user in users` loop of res.py lines 154-169:
skip finished consumers; when every need fits the work vector, add the
consumer allocation to work, mark it finished, append it to the sequence and
raise the `found` flag. -/
def passBody (st : SysState) (b : BSt) (u : User) : BSt :=
  if b.finish.get u then b
  else if canAllocate st b.work u then
    { work := b.work.addVec (st.allocation.get u)
      finish := b.finish.set u true
      seq := b.seq ++ [u]
      found := true }
  else b

/-- One pass of the `while True` loop (res.py lines 152-169): reset `found`,
then scan all consumers in registration order, later consumers seeing the
work vector updated by earlier finishers of the same pass. -/
def onePass (st : SysState) (b : BSt) : BSt :=
  List.foldl (passBody st) { b with found := false } userList

/-- The `while True` loop of res.py lines 152-172, with explicit fuel.  Each
productive pass finishes at least one of the four consumers, so fuel
`userList.length + 1` always reaches the pass that finds nobody (the point
of the fixpoint part of claim C4 below). -/
def safeLoop (st : SysState) : Nat → BSt → BSt
  | 0, b => b
  | n + 1, b =>
    let b2 := onePass st b
    if b2.found then safeLoop st n b2 else b2

/-- The Banker feasibility test on a snapshot (res.py lines 139-177, after
the probe refresh of line 136): returns the verdict and, when safe, the safe
sequence; when unsafe the partial sequence is discarded (line 177). -/
def runChecker (st : SysState) : Bool × Option (List User) :=
  let b := safeLoop st (userList.length + 1)
    { work := st.resources, finish := .const false, seq := [], found := false }
  let ok := userList.all fun u => b.finish.get u
  (ok, if ok then some b.seq else none)

/-- The `is_safe_state` function of res.py lines 131-177.  Its first
statement is `update_system_resources()` (line 136), which overwrites the
available vector with the probed capacities; the returned first component is
the mutated global state. -/
def is_safe_state (probe : ResVec) (st : SysState) :
    SysState × Bool × Option (List User) :=
  let st2 : SysState := { st with resources := probe }
  (st2, runChecker st2)

/-! ### The SafetyChecker as worded by the specification

The definitions below transcribe spec.md section 4.2 (and the wording of
claim C4): need is max claim minus allocation; passes scan unfinished
consumers (here: consumers not yet in the output sequence) in registration
order; a pass with no new finisher stops the loop.  They are intentionally
bookkept differently from the source translation (membership in the output
sequence instead of a finish map and a found flag) and proved equivalent in
claim C4. -/

/-- Spec wording, one consumer of a pass: if the consumer is unfinished and
its need is componentwise at most work, add its allocation to work and append
it to the sequence. -/
def specStep (st : SysState) (p : ResVec × List User) (u : User) :
    ResVec × List User :=
  if u ∈ p.2 then p
  else if resList.all (fun r => decide (cell st.max_claim u r - cell st.allocation u r ≤ p.1.get r)) then
    (p.1.addVec (st.allocation.get u), p.2 ++ [u])
  else p

/-- Spec wording, one pass: scan all consumers in registration order. -/
def specPass (st : SysState) (p : ResVec × List User) : ResVec × List User :=
  List.foldl (specStep st) p userList

/-- Spec wording, repeat passes until one makes no progress (finishes no new
consumer, i.e. the sequence keeps its length). -/
def specLoop (st : SysState) : Nat → ResVec × List User → ResVec × List User
  | 0, p => p
  | n + 1, p =>
    let p2 := specPass st p
    if p2.2.length = p.2.length then p2 else specLoop st n p2

/-- The SafetyChecker as described by the spec: run passes from
`work = available` and an empty sequence, report safe iff every consumer
finished, and surface the sequence only when safe. -/
def checkerSpec (st : SysState) : Bool × Option (List User) :=
  let p := specLoop st (userList.length + 1) (st.resources, [])
  let ok := userList.all fun u => decide (u ∈ p.2)
  (ok, if ok then some p.2 else none)

/-! ### Operation results and log events -/

/-- Events appended to the log by `log_event`; payloads are kept only where a
claim inspects them.  Message text and timestamps are dropped. -/
inductive LogEvent : Type
  | deniedNoUnits (u : User) (r : Res)
  | deniedNotEnough (u : User) (r : Res)
  | deniedClaim (u : User) (r : Res)
  | deniedDeadlock (u : User) (amt : ℚ) (r : Res)
  | allocated (u : User) (amt : ℚ) (r : Res)
  | safeSeq (seq : List User)
  | released (u : User) (amt : ℚ) (r : Res)
  | safeAfterRelease (seq : List User)
  | insufficientRelease (u : User) (r : Res)
  | maxClaimFailed (u : User)
  | maxClaimUpdated (u : User) (r : Res) (v : ℚ)
  | safeAfterMaxClaim (seq : List User)
  | stateWarning
deriving DecidableEq, Repr

/-- Return value of `request_resource`: the source returns a pair
`(bool, message)`; each constructor stands for one of the five message
shapes (res.py lines 186, 201, 207, 229, 233). -/
inductive ReqResult : Type
  | success
  | noUnits
  | notEnough
  | exceedsClaim
  | wouldDeadlock
deriving DecidableEq, Repr

/-- Return value of `release_resource` (res.py lines 258, 260-262). -/
inductive RelResult : Type
  | success
  | insufficient
deriving DecidableEq, Repr

/-- Return value of `update_max_claim`: rejection (res.py line 272), plain
success (line 283), or success carrying the unsafe-state warning
(line 289). -/
inductive MCResult : Type
  | belowAllocation
  | updated
  | updatedWithWarning
deriving DecidableEq, Repr

/-- Whether an `update_max_claim` outcome is a success (first component of
the returned pair being `True`). -/
def MCResult.isSuccess : MCResult → Bool
  | .belowAllocation => false
  | .updated => true
  | .updatedWithWarning => true

/-- Outcome of one operation: the post-call global state, the returned
result, and the log events the call appended. -/
structure Out (ρ : Type) : Type where
  state : SysState
  result : ρ
  events : List LogEvent
deriving DecidableEq, Repr

/-! ### The three AllocationService operations -/

/-- The `request_resource` function of res.py lines 179-235.  The call
re-probes availability at line 181 (and again inside `is_safe_state`), so
the available vector after any path is the probed vector.  On a safe
tentative apply the allocation increment is committed; on an unsafe one it
is reverted (line 232).  The `check_resource_usage` call of the success path
(line 222) only re-probes (same probe, no state change here) and formats
alert strings; the alert text is not modelled. -/
def request_resource (probe : ResVec) (st : SysState) (u : User) (r : Res) :
    Out ReqResult :=
  let st1 : SysState := { st with resources := probe }
  if st1.resources.get r ≤ 0 then
    ⟨st1, .noUnits, [.deniedNoUnits u r]⟩
  else
    let amt := allocation_amount r
    if st1.resources.get r < amt then
      ⟨st1, .notEnough, [.deniedNotEnough u r]⟩
    else if cell st1.allocation u r + amt > cell st1.max_claim u r then
      ⟨st1, .exceedsClaim, [.deniedClaim u r]⟩
    else
      let st2 : SysState :=
        { st1 with allocation := setCell st1.allocation u r (cell st1.allocation u r + amt) }
      let chk := is_safe_state probe st2
      let st3 := chk.1
      if chk.2.1 then
        ⟨st3, .success, [.allocated u amt r, .safeSeq (chk.2.2.getD [])]⟩
      else
        ⟨{ st3 with allocation := setCell st3.allocation u r (cell st3.allocation u r - amt) },
          .wouldDeadlock, [.deniedDeadlock u amt r]⟩

/-- The `release_resource` function of res.py lines 237-262.  The
insufficient branch touches nothing; the sufficient branch decrements the
allocation and then calls `is_safe_state` (which re-probes availability)
purely to log, its verdict never influencing the returned result. -/
def release_resource (probe : ResVec) (st : SysState) (u : User) (r : Res) :
    Out RelResult :=
  let amt := allocation_amount r
  if amt ≤ cell st.allocation u r then
    let st1 : SysState :=
      { st with allocation := setCell st.allocation u r (cell st.allocation u r - amt) }
    let chk := is_safe_state probe st1
    ⟨chk.1, .success,
      .released u amt r :: (if chk.2.1 then [.safeAfterRelease (chk.2.2.getD [])] else [])⟩
  else
    ⟨st, .insufficient, [.insufficientRelease u r]⟩

/-- The `update_max_claim` function of res.py lines 264-291 for a numeric
argument (for which the `float(new_max)` conversion of line 267 always
succeeds).  Rejection when the new maximum is below the current allocation;
otherwise the update is committed unconditionally and `is_safe_state`
(which re-probes availability) only selects between the plain success
message and the unsafe-state warning message, both returned as success. -/
def update_max_claim (probe : ResVec) (st : SysState) (u : User) (r : Res) (v : ℚ) :
    Out MCResult :=
  if v < cell st.allocation u r then
    ⟨st, .belowAllocation, [.maxClaimFailed u]⟩
  else
    let st1 : SysState := { st with max_claim := setCell st.max_claim u r v }
    let chk := is_safe_state probe st1
    if chk.2.1 then
      ⟨chk.1, .updated, [.maxClaimUpdated u r v, .safeAfterMaxClaim (chk.2.2.getD [])]⟩
    else
      ⟨chk.1, .updatedWithWarning, [.maxClaimUpdated u r v, .stateWarning]⟩

/-- One Monitor refresh (res.py lines 293-312, `system_monitor` loop body):
under the lock the available vector is overwritten with the probed
capacities; the subsequent `is_safe_state` call only logs. -/
def monitor_refresh (probe : ResVec) (st : SysState) : SysState :=
  { st with resources := probe }

/-! ### String-level entry point (for claim C9)

`request_resource` is called from the web callbacks with a user name from
the session and a resource name from a dropdown.  The function body itself
performs raw dictionary lookups: `resources[resource]` at line 184 and
`allocation[user][resource]` at line 206.  An unregistered name raises an
uncaught `KeyError` there; this is modelled by returning `none` in the
second component, while the first component is the global state at the
moment the exception escapes (the probe write of line 181 has already
happened). -/

/-- Lookup in the `users` dictionary of res.py line 23. -/
def lookupUser (s : String) : Option User :=
  if s = "admin" then some .admin
  else if s = "User1" then some .user1
  else if s = "User2" then some .user2
  else if s = "User3" then some .user3
  else none

/-- Lookup in the `resources` dictionary of res.py lines 17-22. -/
def lookupRes (s : String) : Option Res :=
  if s = "CPU" then some .CPU
  else if s = "Memory" then some .Memory
  else if s = "Disk" then some .Disk
  else if s = "Network" then some .Network
  else none

/-- `request_resource` on raw string arguments, following the source line by
line: the probe write (line 181) happens first; an unknown resource kind
raises at line 184; a known kind with availability at or below zero (line
184) or below the increment (line 200) returns the corresponding denial
without ever touching `allocation[user]`; only then does line 206 raise for
an unknown user.  `none` in the second component models the uncaught
`KeyError`. -/
def request_resource_py (probe : ResVec) (st : SysState) (userS resS : String) :
    SysState × Option ReqResult :=
  let st1 : SysState := { st with resources := probe }
  match lookupRes resS with
  | none => (st1, none)
  | some r =>
    match lookupUser userS with
    | some u =>
      let o := request_resource probe st u r
      (o.state, some o.result)
    | none =>
      if st1.resources.get r ≤ 0 then (st1, some .noUnits)
      else if st1.resources.get r < allocation_amount r then (st1, some .notEnough)
      else (st1, none)

/-! ### Reachable states -/

/-- The per-kind total the source itself computes (res.py lines 79, 111-113,
656): currently known available capacity plus the sum of all consumer
allocations.  The code stores no separate capacity constant; this derived
figure is its notion of total capacity. -/
def totalCapacity (st : SysState) (r : Res) : ℚ :=
  st.resources.get r + (userList.map fun u => cell st.allocation u r).sum

/-- The fresh-start state built by `load_state` when no saved files exist
(res.py lines 74-80): zero allocations, availability from the first probe,
and every max claim defaulted to 70 percent of the derived total (which at
zero allocation is just the probed availability). -/
def initState (probe0 : ResVec) : SysState :=
  { resources := probe0
    allocation := .const .zero
    max_claim := .const
      ⟨(probe0.cpu + 0) * (7/10), (probe0.memory + 0) * (7/10),
       (probe0.disk + 0) * (7/10), (probe0.network + 0) * (7/10)⟩ }

/-- One committed transition of the system: any outcome of the three
operations (their failure paths included, which at most rewrite the available
vector with the probe), or a Monitor refresh. -/
inductive Step : SysState → SysState → Prop
  | request (probe : ResVec) (st : SysState) (u : User) (r : Res) :
      Step st (request_resource probe st u r).state
  | release (probe : ResVec) (st : SysState) (u : User) (r : Res) :
      Step st (release_resource probe st u r).state
  | setMax (probe : ResVec) (st : SysState) (u : User) (r : Res) (v : ℚ) :
      Step st (update_max_claim probe st u r v).state
  | monitor (probe : ResVec) (st : SysState) :
      Step st (monitor_refresh probe st)

/-- States reachable from a fresh start through the three operations and
Monitor refreshes. -/
inductive Reachable : SysState → Prop
  | init (probe0 : ResVec) : Reachable (initState probe0)
  | step {s s' : SysState} : Reachable s → Step s s' → Reachable s'

/-! ### Basic lemmas about dictionary updates -/

lemma resvec_get_set (v : ResVec) (r r' : Res) (x : ℚ) :
    (v.set r x).get r' = if r' = r then x else v.get r' := by
  cases r <;> cases r' <;> simp [ResVec.set, ResVec.get]

lemma usermap_get_set {α : Type} (m : UserMap α) (u u' : User) (x : α) :
    (m.set u x).get u' = if u' = u then x else m.get u' := by
  cases u <;> cases u' <;> simp [UserMap.set, UserMap.get]

lemma cell_setCell (m : UserMap ResVec) (u : User) (r : Res) (v : ℚ)
    (u' : User) (r' : Res) :
    cell (setCell m u r v) u' r' = if u' = u ∧ r' = r then v else cell m u' r' := by
  unfold cell setCell
  rw [usermap_get_set]
  by_cases hu : u' = u
  · subst hu
    rw [if_pos rfl, resvec_get_set]
    by_cases hr : r' = r
    · simp [hr]
    · simp [hr]
  · simp [hu]

lemma setCell_cell_self (m : UserMap ResVec) (u : User) (r : Res) :
    setCell m u r (cell m u r) = m := by
  cases u <;> cases r <;> rfl

lemma setCell_setCell (m : UserMap ResVec) (u : User) (r : Res) (v w : ℚ) :
    setCell (setCell m u r v) u r w = setCell m u r w := by
  cases u <;> cases r <;> rfl

lemma setCell_revert (m : UserMap ResVec) (u : User) (r : Res) (a : ℚ) :
    setCell (setCell m u r (cell m u r + a)) u r
      (cell (setCell m u r (cell m u r + a)) u r - a) = m := by
  rw [cell_setCell, if_pos ⟨rfl, rfl⟩, add_sub_cancel_right, setCell_setCell,
    setCell_cell_self]

/-- The per-kind increment/decrement step is strictly positive. -/
lemma allocation_amount_pos (r : Res) : 0 < allocation_amount r := by
  cases r <;> norm_num [allocation_amount]

/-- When the checker reports safe, a safe sequence is surfaced. -/
lemma runChecker_snd_of_safe {st : SysState} (h : (runChecker st).1 = true) :
    ∃ s, (runChecker st).2 = some s := by
  unfold runChecker at h ⊢
  exact ⟨_, if_pos h⟩

/-! ### How each operation touches the allocation table -/

/-- A request either leaves the allocation table unchanged (denials, and the
unsafe branch after its exact revert) or commits exactly one increment. -/
lemma request_allocation_cases (probe : ResVec) (st : SysState) (u : User) (r : Res) :
    (request_resource probe st u r).state.allocation = st.allocation ∨
    (request_resource probe st u r).state.allocation =
      setCell st.allocation u r (cell st.allocation u r + allocation_amount r) := by
  simp only [request_resource, is_safe_state]
  split_ifs
  · exact .inl rfl
  · exact .inl rfl
  · exact .inl rfl
  · exact .inr rfl
  · exact .inl (setCell_revert st.allocation u r (allocation_amount r))

/-- A release either leaves the allocation table unchanged or, when the
guard held, commits exactly one decrement. -/
lemma release_allocation_cases (probe : ResVec) (st : SysState) (u : User) (r : Res) :
    (release_resource probe st u r).state.allocation = st.allocation ∨
    (allocation_amount r ≤ cell st.allocation u r ∧
     (release_resource probe st u r).state.allocation =
       setCell st.allocation u r (cell st.allocation u r - allocation_amount r)) := by
  simp only [release_resource, is_safe_state]
  by_cases h : allocation_amount r ≤ cell st.allocation u r
  · rw [if_pos h]
    exact .inr ⟨h, rfl⟩
  · rw [if_neg h]
    exact .inl rfl

/-- A max-claim update never touches the allocation table. -/
lemma update_max_claim_allocation (probe : ResVec) (st : SysState) (u : User)
    (r : Res) (v : ℚ) :
    (update_max_claim probe st u r v).state.allocation = st.allocation := by
  simp only [update_max_claim, is_safe_state]
  split_ifs <;> rfl

/-- In every reachable state all allocation cells are non-negative. -/
lemma reachable_alloc_nonneg {st : SysState} (h : Reachable st) :
    ∀ (u : User) (r : Res), 0 ≤ cell st.allocation u r := by
  induction h with
  | init probe0 =>
    intro u r
    cases u <;> cases r <;>
      norm_num [initState, cell, UserMap.get, UserMap.const, ResVec.get, ResVec.zero]
  | @step s s' hr hs ih =>
    intro u r
    cases hs with
    | request probe st u0 r0 =>
      rcases request_allocation_cases probe s u0 r0 with hc | hc
      · rw [hc]; exact ih u r
      · rw [hc, cell_setCell]
        split_ifs with he
        · exact add_nonneg (he.1 ▸ he.2 ▸ ih u r) (allocation_amount_pos r0).le
        · exact ih u r
    | release probe st u0 r0 =>
      rcases release_allocation_cases probe s u0 r0 with hc | ⟨hg, hc⟩
      · rw [hc]; exact ih u r
      · rw [hc, cell_setCell]
        split_ifs with he
        · obtain ⟨h1, h2⟩ := he
          subst h1
          subst h2
          exact sub_nonneg.mpr hg
        · exact ih u r
    | setMax probe st u0 r0 v =>
      rw [update_max_claim_allocation]
      exact ih u r
    | monitor probe st =>
      exact ih u r

/-! ### Claim theorems -/

/-- C2: in every reachable state and for every kind, available plus the sum
of all consumer allocations equals the currently known total capacity.  The
source stores no capacity constant: its total (res.py lines 79, 111-113,
656) is precisely available plus the allocation sum, so conservation against
the currently known capacity holds by construction in every reachable
state. -/
theorem claim_C2 (st : SysState) (_h : Reachable st) (r : Res) :
    st.resources.get r + (userList.map fun u => cell st.allocation u r).sum =
      totalCapacity st r := rfl

/-- C2 witness: the conservation identity at a concrete reachable state. -/
theorem claim_C2_witness :
    (initState ⟨8, 16, 100, 50⟩).resources.get .CPU +
      (userList.map fun u => cell (initState ⟨8, 16, 100, 50⟩).allocation u .CPU).sum =
      totalCapacity (initState ⟨8, 16, 100, 50⟩) .CPU :=
  claim_C2 (initState ⟨8, 16, 100, 50⟩) (Reachable.init ⟨8, 16, 100, 50⟩) .CPU

/-- C5 (amended): release fails with the insufficient-allocation error and
leaves the whole ledger untouched when the held allocation is below the
per-kind decrement; otherwise it succeeds, decrements that allocation cell
by the per-kind amount and leaves max claims unchanged — but the available
vector is not credited with the freed amount: it is overwritten with the
probe reading. -/
theorem claim_C5 (probe : ResVec) (st : SysState) (u : User) (r : Res) :
    (cell st.allocation u r < allocation_amount r →
      release_resource probe st u r = ⟨st, .insufficient, [.insufficientRelease u r]⟩) ∧
    (allocation_amount r ≤ cell st.allocation u r →
      (release_resource probe st u r).result = .success ∧
      (release_resource probe st u r).state =
        { st with
            resources := probe
            allocation :=
              setCell st.allocation u r (cell st.allocation u r - allocation_amount r) }) := by
  constructor
  · intro h
    simp only [release_resource]
    rw [if_neg (not_le.mpr h)]
  · intro h
    simp only [release_resource, is_safe_state]
    rw [if_pos h]
    exact ⟨rfl, rfl⟩

/-- C7: a max-claim update fails (with the below-allocation error and an
untouched ledger) exactly when the new value is below the current
allocation; otherwise the new maximum is committed unconditionally and the
call succeeds, the result carrying the unsafe-state warning precisely when
the observational checker run reports unsafe. -/
theorem claim_C7 (probe : ResVec) (st : SysState) (u : User) (r : Res) (v : ℚ) :
    ((update_max_claim probe st u r v).result = .belowAllocation ↔
      v < cell st.allocation u r) ∧
    (v < cell st.allocation u r →
      update_max_claim probe st u r v = ⟨st, .belowAllocation, [.maxClaimFailed u]⟩) ∧
    (¬ v < cell st.allocation u r →
      (update_max_claim probe st u r v).state =
        { st with resources := probe, max_claim := setCell st.max_claim u r v } ∧
      (update_max_claim probe st u r v).result.isSuccess = true ∧
      ((update_max_claim probe st u r v).result = .updatedWithWarning ↔
        (runChecker
          { st with resources := probe, max_claim := setCell st.max_claim u r v }).1
          = false)) := by
  by_cases h : v < cell st.allocation u r
  · refine ⟨?_, fun _ => ?_, fun h2 => absurd h h2⟩
    · simp only [update_max_claim, if_pos h]
      simpa using h
    · simp only [update_max_claim, if_pos h]
  · refine ⟨?_, fun h2 => absurd h2 h, fun _ => ?_⟩
    · simp only [update_max_claim, is_safe_state, if_neg h]
      cases hb : (runChecker
          { st with resources := probe, max_claim := setCell st.max_claim u r v }).1 <;>
        simp [hb, h]
    · simp only [update_max_claim, is_safe_state, if_neg h]
      cases hb : (runChecker
          { st with resources := probe, max_claim := setCell st.max_claim u r v }).1 <;>
        simp [hb, MCResult.isSuccess]

/-- C10: allocation cells are non-negative in every reachable state, and for
any state with a non-negative allocation cell a negative new maximum is
below that allocation, so `update_max_claim` rejects it with the
below-allocation error and an unchanged ledger: no dedicated negative-input
validation is needed for a negative max claim to be uncommittable. -/
theorem claim_C10 :
    (∀ st : SysState, Reachable st → ∀ (u : User) (r : Res), 0 ≤ cell st.allocation u r) ∧
    (∀ (probe : ResVec) (st : SysState) (u : User) (r : Res) (v : ℚ),
      v < 0 → 0 ≤ cell st.allocation u r →
      update_max_claim probe st u r v = ⟨st, .belowAllocation, [.maxClaimFailed u]⟩) := by
  refine ⟨fun st h => reachable_alloc_nonneg h, fun probe st u r v hv ha => ?_⟩
  simp only [update_max_claim, if_pos (lt_of_lt_of_le hv ha)]

/-- C10 witness: at a concrete reachable state, the allocation cell is
non-negative and a negative max-claim update is rejected unchanged. -/
theorem claim_C10_witness :
    0 ≤ cell (initState ⟨4, 8, 50, 100⟩).allocation .admin .CPU ∧
    update_max_claim ⟨4, 8, 50, 100⟩ (initState ⟨4, 8, 50, 100⟩) .admin .CPU (-1) =
      ⟨initState ⟨4, 8, 50, 100⟩, .belowAllocation, [.maxClaimFailed .admin]⟩ := by
  have h0 : 0 ≤ cell (initState ⟨4, 8, 50, 100⟩).allocation .admin .CPU :=
    claim_C10.1 _ (Reachable.init ⟨4, 8, 50, 100⟩) .admin .CPU
  exact ⟨h0, claim_C10.2 ⟨4, 8, 50, 100⟩ _ .admin .CPU (-1) (by norm_num) h0⟩

/-- C1 (amended): when a request passes the availability and max-claim
guards but the tentative apply fails the safety check, the call returns the
would-deadlock denial, the allocation increment is reverted exactly and the
max-claim table is untouched; the available vector, however, holds the
freshly probed values (every request overwrites it), so the whole ledger is
byte-for-byte unchanged exactly when the probe reading matches the
previously recorded availability. -/
theorem claim_C1 (probe : ResVec) (st : SysState) (u : User) (r : Res)
    (h1 : ¬ probe.get r ≤ 0)
    (h2 : ¬ probe.get r < allocation_amount r)
    (h3 : ¬ cell st.allocation u r + allocation_amount r > cell st.max_claim u r)
    (h4 : (runChecker
      { st with
          resources := probe
          allocation :=
            setCell st.allocation u r (cell st.allocation u r + allocation_amount r) }).1
      = false) :
    request_resource probe st u r =
      ⟨{ st with resources := probe }, .wouldDeadlock,
        [.deniedDeadlock u (allocation_amount r) r]⟩ ∧
    (probe = st.resources → (request_resource probe st u r).state = st) := by
  have hmain : request_resource probe st u r =
      ⟨{ st with resources := probe }, .wouldDeadlock,
        [.deniedDeadlock u (allocation_amount r) r]⟩ := by
    simp only [request_resource, is_safe_state]
    rw [if_neg h1, if_neg h2, if_neg h3]
    simp only [h4, Bool.false_eq_true, if_false]
    rw [setCell_revert]
  refine ⟨hmain, fun hp => ?_⟩
  rw [hmain, hp]

/-- C3 (amended): when a request passes the availability and max-claim
guards and the tentative apply passes the safety check, the call succeeds;
the committed ledger has exactly one allocation cell increased by the
per-kind increment and unchanged max claims, but the available vector is
not decremented: it holds the freshly probed values.  The safe sequence
produced by the checker is carried by the emitted success log event, not by
the returned result value. -/
theorem claim_C3 (probe : ResVec) (st : SysState) (u : User) (r : Res)
    (h1 : ¬ probe.get r ≤ 0)
    (h2 : ¬ probe.get r < allocation_amount r)
    (h3 : ¬ cell st.allocation u r + allocation_amount r > cell st.max_claim u r)
    (h4 : (runChecker
      { st with
          resources := probe
          allocation :=
            setCell st.allocation u r (cell st.allocation u r + allocation_amount r) }).1
      = true) :
    (request_resource probe st u r).result = .success ∧
    (request_resource probe st u r).state =
      { st with
          resources := probe
          allocation :=
            setCell st.allocation u r (cell st.allocation u r + allocation_amount r) } ∧
    ∃ s, (runChecker
      { st with
          resources := probe
          allocation :=
            setCell st.allocation u r (cell st.allocation u r + allocation_amount r) }).2
        = some s ∧
      (request_resource probe st u r).events =
        [.allocated u (allocation_amount r) r, .safeSeq s] := by
  obtain ⟨seqw, hs⟩ := runChecker_snd_of_safe h4
  have hmain : request_resource probe st u r =
      ⟨{ st with
          resources := probe
          allocation :=
            setCell st.allocation u r (cell st.allocation u r + allocation_amount r) },
        .success,
        [.allocated u (allocation_amount r) r, .safeSeq seqw]⟩ := by
    simp only [request_resource, is_safe_state]
    rw [if_neg h1, if_neg h2, if_neg h3, if_pos h4, hs]
    rfl
  rw [hmain]
  exact ⟨rfl, rfl, seqw, hs, rfl⟩

/-! ### Equivalence of the source checker with the spec-worded checker (C4) -/

lemma specStep_len_le (st : SysState) (p : ResVec × List User) (u : User) :
    p.2.length ≤ (specStep st p u).2.length := by
  unfold specStep
  split_ifs <;> simp

lemma spec_foldl_len_le (st : SysState) :
    ∀ (l : List User) (p : ResVec × List User),
      p.2.length ≤ (List.foldl (specStep st) p l).2.length := by
  intro l
  induction l with
  | nil => intro p; simp
  | cons a l ih =>
    intro p
    rw [List.foldl_cons]
    exact le_trans (specStep_len_le st p a) (ih (specStep st p a))

/-- The inner scan of the source (finish map, found flag) simulates the
spec-worded scan (membership in the output sequence): the work vectors and
sequences agree, finish is membership, and the found flag records exactly
whether the sequence grew. -/
lemma fold_rel (st : SysState) :
    ∀ (l : List User) (w : ResVec) (f : UserMap Bool) (s : List User) (fd : Bool),
      (∀ u, f.get u = decide (u ∈ s)) →
      (List.foldl (passBody st) ⟨w, f, s, fd⟩ l).work =
        (List.foldl (specStep st) (w, s) l).1 ∧
      (List.foldl (passBody st) ⟨w, f, s, fd⟩ l).seq =
        (List.foldl (specStep st) (w, s) l).2 ∧
      (∀ u, (List.foldl (passBody st) ⟨w, f, s, fd⟩ l).finish.get u =
        decide (u ∈ (List.foldl (specStep st) (w, s) l).2)) ∧
      (List.foldl (passBody st) ⟨w, f, s, fd⟩ l).found =
        (fd || decide (s.length < (List.foldl (specStep st) (w, s) l).2.length)) := by
  intro l
  induction l with
  | nil =>
    intro w f s fd hf
    refine ⟨rfl, rfl, hf, ?_⟩
    simp
  | cons a l ih =>
    intro w f s fd hf
    rw [List.foldl_cons, List.foldl_cons]
    by_cases ha : a ∈ s
    · have hfa : f.get a = true := by rw [hf a]; simp [ha]
      have hpb : passBody st ⟨w, f, s, fd⟩ a = ⟨w, f, s, fd⟩ := by
        simp [passBody, hfa]
      have hsp : specStep st (w, s) a = (w, s) := by
        simp [specStep, ha]
      rw [hpb, hsp]
      exact ih w f s fd hf
    · have hfa : f.get a = false := by rw [hf a]; simp [ha]
      by_cases hc : canAllocate st w a = true
      · have hc2 : (resList.all fun r =>
            decide (cell st.max_claim a r - cell st.allocation a r ≤ w.get r)) = true := hc
        have hsp : specStep st (w, s) a = (w.addVec (st.allocation.get a), s ++ [a]) := by
          simp only [specStep]
          rw [if_neg ha, if_pos hc2]
        have hpb : passBody st ⟨w, f, s, fd⟩ a =
            ⟨w.addVec (st.allocation.get a), f.set a true, s ++ [a], true⟩ := by
          simp [passBody, hfa, hc]
        rw [hpb, hsp]
        have hf' : ∀ u, (f.set a true).get u = decide (u ∈ s ++ [a]) := by
          intro u
          rw [usermap_get_set]
          by_cases hu : u = a
          · simp [hu]
          · simp [hu, hf u]
        have hrec := ih (w.addVec (st.allocation.get a)) (f.set a true) (s ++ [a]) true hf'
        refine ⟨hrec.1, hrec.2.1, hrec.2.2.1, ?_⟩
        rw [hrec.2.2.2]
        have hlt : s.length <
            (List.foldl (specStep st) (w.addVec (st.allocation.get a), s ++ [a]) l).2.length := by
          have hmono := spec_foldl_len_le st l (w.addVec (st.allocation.get a), s ++ [a])
          simp only [List.length_append, List.length_singleton] at hmono
          omega
        simp [hlt]
      · have hc2 : ¬ ((resList.all fun r =>
            decide (cell st.max_claim a r - cell st.allocation a r ≤ w.get r)) = true) := hc
        have hsp : specStep st (w, s) a = (w, s) := by
          simp only [specStep]
          rw [if_neg ha, if_neg hc2]
        have hpb : passBody st ⟨w, f, s, fd⟩ a = ⟨w, f, s, fd⟩ := by
          simp [passBody, hfa, hc]
        rw [hpb, hsp]
        exact ih w f s fd hf

/-- The pass loop of the source simulates the spec-worded pass loop, for any
fuel: work vectors and sequences agree and finish is membership. -/
lemma loop_rel (st : SysState) :
    ∀ (n : Nat) (b : BSt) (q : ResVec × List User),
      b.work = q.1 → b.seq = q.2 →
      (∀ u, b.finish.get u = decide (u ∈ q.2)) →
      (safeLoop st n b).work = (specLoop st n q).1 ∧
      (safeLoop st n b).seq = (specLoop st n q).2 ∧
      (∀ u, (safeLoop st n b).finish.get u = decide (u ∈ (specLoop st n q).2)) := by
  intro n
  induction n with
  | zero =>
    intro b q hw hs hf
    exact ⟨hw, hs, hf⟩
  | succ n ih =>
    intro b q hw hs hf
    obtain ⟨bw, bf, bs, bfd⟩ := b
    obtain ⟨qw, qs⟩ := q
    simp only at hw hs
    subst hw
    subst hs
    have hfold := fold_rel st userList bw bf bs false hf
    simp only [safeLoop, specLoop, onePass, specPass]
    by_cases heq : (List.foldl (specStep st) (bw, bs) userList).2.length = bs.length
    · have hfd : (List.foldl (passBody st) ⟨bw, bf, bs, false⟩ userList).found = false := by
        rw [hfold.2.2.2]
        have : ¬ bs.length < (List.foldl (specStep st) (bw, bs) userList).2.length := by
          omega
        simp [this]
      rw [if_pos heq, hfd]
      simp only [Bool.false_eq_true, if_false]
      exact ⟨hfold.1, hfold.2.1, hfold.2.2.1⟩
    · have hmono : bs.length ≤ (List.foldl (specStep st) (bw, bs) userList).2.length :=
        spec_foldl_len_le st userList (bw, bs)
      have hlt : bs.length < (List.foldl (specStep st) (bw, bs) userList).2.length := by
        omega
      have hfd : (List.foldl (passBody st) ⟨bw, bf, bs, false⟩ userList).found = true := by
        rw [hfold.2.2.2]
        simp [hlt]
      rw [if_neg heq, hfd]
      simp only [if_true]
      refine ih _ _ hfold.1 hfold.2.1 ?_
      intro u
      rw [hfold.2.2.1 u]

/-- The source checker and the spec-worded checker agree on every
snapshot. -/
lemma runChecker_eq_checkerSpec (st : SysState) : runChecker st = checkerSpec st := by
  have h := loop_rel st (userList.length + 1)
    ⟨st.resources, .const false, [], false⟩ (st.resources, []) rfl rfl
    (by intro u; cases u <;> rfl)
  obtain ⟨hw, hs, hf⟩ := h
  have hok : (userList.all fun u =>
      (safeLoop st (userList.length + 1)
        ⟨st.resources, .const false, [], false⟩).finish.get u) =
    (userList.all fun u =>
      decide (u ∈ (specLoop st (userList.length + 1) (st.resources, [])).2)) :=
    congrArg _ (funext hf)
  simp only [runChecker, checkerSpec]
  rw [hok, hs]

/-! ### The loop always reaches an unproductive pass (C4, stopping rule) -/

lemma specStep_id_or_append (st : SysState) (p : ResVec × List User) (u : User) :
    specStep st p u = p ∨ (u ∉ p.2 ∧ (specStep st p u).2 = p.2 ++ [u]) := by
  unfold specStep
  split_ifs with h1 h2
  · exact .inl rfl
  · exact .inr ⟨h1, rfl⟩
  · exact .inl rfl

lemma spec_foldl_id_of_len_eq (st : SysState) :
    ∀ (l : List User) (p : ResVec × List User),
      (List.foldl (specStep st) p l).2.length = p.2.length →
      List.foldl (specStep st) p l = p := by
  intro l
  induction l with
  | nil => intro p _; rfl
  | cons a l ih =>
    intro p hlen
    rw [List.foldl_cons] at hlen ⊢
    rcases specStep_id_or_append st p a with hid | ⟨_, happ⟩
    · rw [hid] at hlen ⊢
      exact ih p hlen
    · exfalso
      have hmono := spec_foldl_len_le st l (specStep st p a)
      rw [happ] at hmono
      simp only [List.length_append, List.length_singleton] at hmono
      omega

lemma spec_foldl_inv (st : SysState) :
    ∀ (l : List User) (p : ResVec × List User),
      (∀ x ∈ l, x ∈ userList) → p.2.Nodup → (∀ x ∈ p.2, x ∈ userList) →
      (List.foldl (specStep st) p l).2.Nodup ∧
      (∀ x ∈ (List.foldl (specStep st) p l).2, x ∈ userList) := by
  intro l
  induction l with
  | nil => intro p _ h1 h2; exact ⟨h1, h2⟩
  | cons a l ih =>
    intro p hl h1 h2
    rw [List.foldl_cons]
    rcases specStep_id_or_append st p a with hid | ⟨hmem, happ⟩
    · rw [hid]
      exact ih p (fun x hx => hl x (List.mem_cons_of_mem a hx)) h1 h2
    · have hq : (specStep st p a).2 = p.2 ++ [a] := happ
      refine ih (specStep st p a) (fun x hx => hl x (List.mem_cons_of_mem a hx)) ?_ ?_
      · rw [hq]
        simp [List.nodup_append, h1, hmem]
      · rw [hq]
        intro x hx
        rcases List.mem_append.mp hx with hx | hx
        · exact h2 x hx
        · rw [List.mem_singleton.mp hx]
          exact hl a (List.mem_cons_self a l)

lemma specPass_id_of_len_eq (st : SysState) (p : ResVec × List User)
    (h : (specPass st p).2.length = p.2.length) : specPass st p = p :=
  spec_foldl_id_of_len_eq st userList p h

/-- With enough fuel relative to the number of still-unfinished consumers,
the spec-worded loop ends in a configuration from which one more pass makes
no change: the iteration stopped at the first unproductive pass, not by fuel
exhaustion. -/
lemma specLoop_stable (st : SysState) :
    ∀ (n : Nat) (p : ResVec × List User),
      p.2.Nodup → (∀ x ∈ p.2, x ∈ userList) →
      userList.length < p.2.length + n →
      specPass st (specLoop st n p) = specLoop st n p := by
  intro n
  induction n with
  | zero =>
    intro p h1 h2 hbound
    exfalso
    have hle : p.2.length ≤ userList.length :=
      (List.subperm_of_subset h1 h2).length_le
    omega
  | succ n ih =>
    intro p h1 h2 hbound
    simp only [specLoop]
    by_cases heq : (specPass st p).2.length = p.2.length
    · rw [if_pos heq]
      have hid : specPass st p = p := specPass_id_of_len_eq st p heq
      rw [hid]
      exact hid
    · rw [if_neg heq]
      have hmono : p.2.length ≤ (specPass st p).2.length :=
        spec_foldl_len_le st userList p
      obtain ⟨hn, hsub⟩ := spec_foldl_inv st userList p (fun x hx => hx) h1 h2
      exact ih (specPass st p) hn hsub (by omega)

/-- C4: the SafetyChecker of the source follows exactly the algorithm the
claim describes.  First conjunct: the checker run inside `is_safe_state`
(on the probed snapshot) coincides, verdict and optional sequence, with the
spec-worded checker `checkerSpec`, which computes need as max claim minus
allocation, repeatedly scans unfinished consumers in registration order,
immediately adds a fitting consumer's allocation to work and appends it to
the sequence within the same pass, stops at the first pass finishing no new
consumer, reports safe iff every consumer finished, and surfaces the
sequence only when safe.  Second conjunct: the returned configuration is a
fixpoint — one further pass finishes no new consumer — so the loop indeed
stopped at the first unproductive pass rather than by fuel exhaustion. -/
theorem claim_C4 :
    (∀ (probe : ResVec) (st : SysState),
      (is_safe_state probe st).2 = checkerSpec { st with resources := probe }) ∧
    (∀ s : SysState,
      specPass s (specLoop s (userList.length + 1) (s.resources, [])) =
        specLoop s (userList.length + 1) (s.resources, [])) := by
  constructor
  · intro probe st
    exact runChecker_eq_checkerSpec { st with resources := probe }
  · intro s
    exact specLoop_stable s (userList.length + 1) (s.resources, [])
      List.nodup_nil (fun x hx => absurd hx (List.not_mem_nil x))
      (by simp [userList])

/-! ### Remaining claims: purity of the checker (C8) and string inputs (C9) -/

/-- C8 (amended): the checker is a deterministic function of the probe
reading and of the allocation and max-claim tables — two evaluations with
the same probe reading and tables return identical verdicts and sequences
regardless of the previously recorded available vector, which the checker
ignores — and each call mutates the global state by overwriting the
available vector with the probe reading. -/
theorem claim_C8 (probe : ResVec) (st1 st2 : SysState)
    (ha : st1.allocation = st2.allocation) (hm : st1.max_claim = st2.max_claim) :
    (is_safe_state probe st1).2 = (is_safe_state probe st2).2 ∧
    (is_safe_state probe st1).1 = { st1 with resources := probe } := by
  obtain ⟨r1, a1, m1⟩ := st1
  obtain ⟨r2, a2, m2⟩ := st2
  simp only at ha hm
  subst ha
  subst hm
  exact ⟨rfl, rfl⟩

/-- C9 (amended): a request whose consumer or kind is not registered never
produces a `ValidationError`-style typed result: either the raw dictionary
lookup raises an uncaught `KeyError` (modelled as `none`), or — for an
unknown consumer with a kind whose availability guard already fails — an
ordinary availability denial is returned.  The allocation and max-claim
tables are unchanged in all cases (the available vector is still rewritten
by the probe refresh that precedes the failing lookup). -/
theorem claim_C9 (probe : ResVec) (st : SysState) (userS resS : String)
    (h : lookupUser userS = none ∨ lookupRes resS = none) :
    (request_resource_py probe st userS resS).1.allocation = st.allocation ∧
    (request_resource_py probe st userS resS).1.max_claim = st.max_claim ∧
    ((request_resource_py probe st userS resS).2 = none ∨
     (request_resource_py probe st userS resS).2 = some .noUnits ∨
     (request_resource_py probe st userS resS).2 = some .notEnough) := by
  cases hres : lookupRes resS with
  | none =>
    simp only [request_resource_py, hres]
    exact ⟨by trivial, by trivial, .inl (by trivial)⟩
  | some r =>
    cases huser : lookupUser userS with
    | some u =>
      exfalso
      rcases h with h | h
      · rw [huser] at h
        exact Option.some_ne_none u h
      · rw [hres] at h
        exact Option.some_ne_none r h
    | none =>
      simp only [request_resource_py, hres, huser]
      by_cases h1 : probe.get r ≤ 0
      · rw [if_pos h1]
        exact ⟨by trivial, by trivial, .inr (.inl (by trivial))⟩
      · rw [if_neg h1]
        by_cases h2 : probe.get r < allocation_amount r
        · rw [if_pos h2]
          exact ⟨by trivial, by trivial, .inr (.inr (by trivial))⟩
        · rw [if_neg h2]
          exact ⟨by trivial, by trivial, .inl (by trivial)⟩

/-! ### Concrete scenarios: witnesses, counterexamples, and the release bug -/

/-- Scenario for C1: the probe reports 0.1 CPU while 5 was recorded; admin
(zero allocation, max claim 1 CPU) requests CPU; the tentative apply is
unsafe (need 0.9 exceeds work 0.1). -/
def oneProbe : ResVec := ⟨1/10, 0, 0, 0⟩

def oneState : SysState :=
  { resources := ⟨5, 0, 0, 0⟩
    allocation := .const .zero
    max_claim := ⟨⟨1, 0, 0, 0⟩, .zero, .zero, .zero⟩ }

/-- C1 witness: the amended theorem at the concrete unsafe request. -/
theorem claim_C1_witness :
    request_resource oneProbe oneState .admin .CPU =
      ⟨{ oneState with resources := oneProbe }, .wouldDeadlock,
        [.deniedDeadlock .admin (allocation_amount .CPU) .CPU]⟩ :=
  (claim_C1 oneProbe oneState .admin .CPU
    (by norm_num [oneProbe, ResVec.get])
    (by norm_num [oneProbe, ResVec.get, allocation_amount])
    (by norm_num [oneState, cell, UserMap.get, UserMap.const, ResVec.get, ResVec.zero,
      allocation_amount])
    (by norm_num [runChecker, safeLoop, onePass, passBody, canAllocate, needQ, cell,
      setCell, userList, resList, List.foldl, List.all, oneProbe, oneState,
      ResVec.get, ResVec.set, ResVec.addVec, ResVec.zero,
      UserMap.get, UserMap.set, UserMap.const, allocation_amount])).1

/-- C1 counterexample to the claim as stated: the request is denied on the
safety gate, yet the ledger is not byte-for-byte identical — the available
vector now holds the probed values instead of the prior ones. -/
theorem claim_C1_counterexample :
    (request_resource oneProbe oneState .admin .CPU).result = .wouldDeadlock ∧
    (request_resource oneProbe oneState .admin .CPU).state.resources ≠
      oneState.resources := by
  have hmain :
      (request_resource oneProbe oneState .admin .CPU).state.resources = oneProbe ∧
      (request_resource oneProbe oneState .admin .CPU).result = .wouldDeadlock := by
    norm_num [request_resource, is_safe_state, runChecker, safeLoop, onePass, passBody,
      canAllocate, needQ, cell, setCell, userList, resList, List.foldl, List.all,
      oneProbe, oneState, ResVec.get, ResVec.set, ResVec.addVec, ResVec.zero,
      UserMap.get, UserMap.set, UserMap.const, allocation_amount]
  refine ⟨hmain.2, ?_⟩
  rw [hmain.1]
  intro hcontra
  have := congrArg ResVec.cpu hcontra
  norm_num [oneProbe, oneState] at this

/-- Scenario for C3: probe and recorded availability agree at 10 CPU; admin
(zero allocation, max claim 10 CPU) requests CPU and the tentative apply is
safe. -/
def threeProbe : ResVec := ⟨10, 0, 0, 0⟩

def threeState : SysState :=
  { resources := ⟨10, 0, 0, 0⟩
    allocation := .const .zero
    max_claim := ⟨⟨10, 0, 0, 0⟩, .zero, .zero, .zero⟩ }

/-- C3 witness: the amended theorem at the concrete safe request. -/
theorem claim_C3_witness :
    (request_resource threeProbe threeState .admin .CPU).result = .success ∧
    (request_resource threeProbe threeState .admin .CPU).state =
      { threeState with
          resources := threeProbe
          allocation := setCell threeState.allocation .admin .CPU
            (cell threeState.allocation .admin .CPU + allocation_amount .CPU) } := by
  have h := claim_C3 threeProbe threeState .admin .CPU
    (by norm_num [threeProbe, ResVec.get])
    (by norm_num [threeProbe, ResVec.get, allocation_amount])
    (by norm_num [threeState, cell, UserMap.get, UserMap.const, ResVec.get, ResVec.zero,
      allocation_amount])
    (by norm_num [runChecker, safeLoop, onePass, passBody, canAllocate, needQ, cell,
      setCell, userList, resList, List.foldl, List.all, threeProbe, threeState,
      ResVec.get, ResVec.set, ResVec.addVec, ResVec.zero,
      UserMap.get, UserMap.set, UserMap.const, allocation_amount])
  exact ⟨h.1, h.2.1⟩

/-- C3 counterexample to the claim as stated: the request succeeds, yet the
available vector is not decreased by the increment — it still holds the
probed value. -/
theorem claim_C3_counterexample :
    (request_resource threeProbe threeState .admin .CPU).result = .success ∧
    (request_resource threeProbe threeState .admin .CPU).state.resources.get .CPU ≠
      threeState.resources.get .CPU - allocation_amount .CPU := by
  have hmain :
      (request_resource threeProbe threeState .admin .CPU).state.resources = threeProbe ∧
      (request_resource threeProbe threeState .admin .CPU).result = .success := by
    norm_num [request_resource, is_safe_state, runChecker, safeLoop, onePass, passBody,
      canAllocate, needQ, cell, setCell, userList, resList, List.foldl, List.all,
      threeProbe, threeState, ResVec.get, ResVec.set, ResVec.addVec, ResVec.zero,
      UserMap.get, UserMap.set, UserMap.const, allocation_amount]
  refine ⟨hmain.2, ?_⟩
  rw [hmain.1]
  norm_num [threeProbe, threeState, ResVec.get, allocation_amount]

/-- Scenario for C5: recorded and probed availability 2 CPU; admin holds
1 CPU (decrement 0.1) and 0.2 Memory (decrement 0.5). -/
def fiveProbe : ResVec := ⟨2, 0, 0, 0⟩

def fiveState : SysState :=
  { resources := ⟨2, 0, 0, 0⟩
    allocation := ⟨⟨1, 1/5, 0, 0⟩, .zero, .zero, .zero⟩
    max_claim := ⟨⟨2, 1, 0, 0⟩, .zero, .zero, .zero⟩ }

/-- C5 witness: the amended theorem at a failing release (Memory, holding
0.2 of decrement 0.5) and at a succeeding release (CPU). -/
theorem claim_C5_witness :
    release_resource fiveProbe fiveState .admin .Memory =
      ⟨fiveState, .insufficient, [.insufficientRelease .admin .Memory]⟩ ∧
    (release_resource fiveProbe fiveState .admin .CPU).result = .success ∧
    (release_resource fiveProbe fiveState .admin .CPU).state =
      { fiveState with
          resources := fiveProbe
          allocation := setCell fiveState.allocation .admin .CPU
            (cell fiveState.allocation .admin .CPU - allocation_amount .CPU) } := by
  refine ⟨(claim_C5 fiveProbe fiveState .admin .Memory).1 ?_,
    (claim_C5 fiveProbe fiveState .admin .CPU).2 ?_⟩
  · norm_num [fiveState, cell, UserMap.get, ResVec.get, allocation_amount]
  · norm_num [fiveState, cell, UserMap.get, ResVec.get, allocation_amount]

/-- C5 counterexample to the claim as stated: the release succeeds, yet the
available vector is not increased by the decrement — it still holds the
probed value. -/
theorem claim_C5_counterexample :
    (release_resource fiveProbe fiveState .admin .CPU).result = .success ∧
    (release_resource fiveProbe fiveState .admin .CPU).state.resources.get .CPU ≠
      fiveState.resources.get .CPU + allocation_amount .CPU := by
  have hmain :
      (release_resource fiveProbe fiveState .admin .CPU).state.resources = fiveProbe ∧
      (release_resource fiveProbe fiveState .admin .CPU).result = .success := by
    norm_num [release_resource, is_safe_state, cell, setCell, UserMap.get, UserMap.set,
      ResVec.get, ResVec.set, fiveState, fiveProbe, allocation_amount]
  refine ⟨hmain.2, ?_⟩
  rw [hmain.1]
  norm_num [fiveProbe, fiveState, ResVec.get, allocation_amount]

/-- Scenario for C6: probed availability 0 everywhere; admin holds 0.1 CPU
with max claim exactly 0.1, so need is 0 and the state is safe.  Releasing
0.1 CPU raises the need back to 0.1 while the freed amount is never credited
to the probe-driven available vector, so the checker then reports unsafe. -/
def sixProbe : ResVec := ⟨0, 0, 0, 0⟩

def sixState : SysState :=
  { resources := ⟨0, 0, 0, 0⟩
    allocation := ⟨⟨1/10, 0, 0, 0⟩, .zero, .zero, .zero⟩
    max_claim := ⟨⟨1/10, 0, 0, 0⟩, .zero, .zero, .zero⟩ }

/-- C6: evaluation of the code at the failing input.  The pre-release state
is safe, the release is accepted (release is indeed never gated on safety),
and the post-release state is reported unsafe by the very next checker run —
contradicting the claim (and the source comment at res.py line 253) that a
release can never cause a safe-to-unsafe transition. -/
theorem claim_C6 :
    (is_safe_state sixProbe sixState).2.1 = true ∧
    (release_resource sixProbe sixState .admin .CPU).result = .success ∧
    (is_safe_state sixProbe (release_resource sixProbe sixState .admin .CPU).state).2.1
      = false := by
  refine ⟨?_, ?_, ?_⟩
  · norm_num [is_safe_state, runChecker, safeLoop, onePass, passBody, canAllocate,
      needQ, cell, setCell, userList, resList, List.foldl, List.all, sixProbe, sixState,
      ResVec.get, ResVec.set, ResVec.addVec, ResVec.zero,
      UserMap.get, UserMap.set, UserMap.const]
  · norm_num [release_resource, sixState, sixProbe, allocation_amount, cell,
      ResVec.get, UserMap.get]
  · norm_num [is_safe_state, runChecker, safeLoop, onePass, passBody, canAllocate,
      needQ, cell, setCell, userList, resList, List.foldl, List.all,
      release_resource, allocation_amount, sixProbe, sixState,
      ResVec.get, ResVec.set, ResVec.addVec, ResVec.zero,
      UserMap.get, UserMap.set, UserMap.const]

/-- Scenario for C8: allocation and max-claim tables with admin claiming 1
CPU; two probe readings, 1 CPU (safe) and 0.5 CPU (unsafe). -/
def eightState : SysState :=
  { resources := ⟨1, 0, 0, 0⟩
    allocation := .const .zero
    max_claim := ⟨⟨1, 0, 0, 0⟩, .zero, .zero, .zero⟩ }

def eightProbeA : ResVec := ⟨1, 0, 0, 0⟩

def eightProbeB : ResVec := ⟨1/2, 0, 0, 0⟩

/-- C8 witness: the amended theorem at two concrete states sharing tables
but differing in the recorded available vector. -/
theorem claim_C8_witness :
    (is_safe_state eightProbeA eightState).2 =
      (is_safe_state eightProbeA { eightState with resources := ⟨9, 9, 9, 9⟩ }).2 ∧
    (is_safe_state eightProbeA eightState).1 =
      { eightState with resources := eightProbeA } :=
  claim_C8 eightProbeA eightState { eightState with resources := ⟨9, 9, 9, 9⟩ } rfl rfl

/-- C8 counterexample to the claim as stated: on the very same ledger
snapshot, with no intervening ledger mutation, two checker evaluations under
different probe readings return different verdicts — and the call itself
mutates the snapshot by overwriting its available vector. -/
theorem claim_C8_counterexample :
    (is_safe_state eightProbeA eightState).2.1 = true ∧
    (is_safe_state eightProbeB eightState).2.1 = false ∧
    (is_safe_state eightProbeB eightState).1 ≠ eightState := by
  refine ⟨?_, ?_, ?_⟩
  · norm_num [is_safe_state, runChecker, safeLoop, onePass, passBody, canAllocate,
      needQ, cell, setCell, userList, resList, List.foldl, List.all, eightProbeA,
      eightState, ResVec.get, ResVec.set, ResVec.addVec, ResVec.zero,
      UserMap.get, UserMap.set, UserMap.const]
  · norm_num [is_safe_state, runChecker, safeLoop, onePass, passBody, canAllocate,
      needQ, cell, setCell, userList, resList, List.foldl, List.all, eightProbeB,
      eightState, ResVec.get, ResVec.set, ResVec.addVec, ResVec.zero,
      UserMap.get, UserMap.set, UserMap.const]
  · intro hcontra
    have h2 := congrArg (fun t => t.resources.cpu) hcontra
    norm_num [is_safe_state, eightProbeB, eightState] at h2

/-- Unregistered names used by the C9 scenario. -/
def ghostUserName : String := "User9"

def ghostResName : String := "GPU"

def adminName : String := "admin"

def cpuName : String := "CPU"

def nineProbe : ResVec := ⟨7, 7, 7, 7⟩

def nineState : SysState :=
  { resources := .zero
    allocation := .const .zero
    max_claim := .const .zero }

/-- C9 witness: the amended theorem at a concrete unregistered consumer. -/
theorem claim_C9_witness :
    (request_resource_py nineProbe nineState ghostUserName cpuName).1.allocation =
      nineState.allocation ∧
    (request_resource_py nineProbe nineState ghostUserName cpuName).1.max_claim =
      nineState.max_claim ∧
    ((request_resource_py nineProbe nineState ghostUserName cpuName).2 = none ∨
     (request_resource_py nineProbe nineState ghostUserName cpuName).2 = some .noUnits ∨
     (request_resource_py nineProbe nineState ghostUserName cpuName).2 = some .notEnough) :=
  claim_C9 nineProbe nineState ghostUserName cpuName (.inl (by decide))

/-- C9 counterexample to the claim as stated: with an unregistered consumer
(and plenty of availability) and with an unregistered kind, the call ends in
an uncaught `KeyError` (`none`), not in a typed `ValidationError` result. -/
theorem claim_C9_counterexample :
    (request_resource_py nineProbe nineState ghostUserName cpuName).2 = none ∧
    (request_resource_py nineProbe nineState adminName ghostResName).2 = none := by
  constructor
  · have h1 : lookupRes cpuName = some Res.CPU := by decide
    have h2 : lookupUser ghostUserName = none := by decide
    simp only [request_resource_py, h1, h2]
    norm_num [nineProbe, ResVec.get, allocation_amount]
  · have h1 : lookupRes ghostResName = none := by decide
    simp only [request_resource_py, h1]

/-- Scenario for C7: admin holds 1 CPU with max claim 2, recorded and probed
availability 3 CPU. -/
def sevenProbe : ResVec := ⟨3, 0, 0, 0⟩

def sevenState : SysState :=
  { resources := ⟨3, 0, 0, 0⟩
    allocation := ⟨⟨1, 0, 0, 0⟩, .zero, .zero, .zero⟩
    max_claim := ⟨⟨2, 0, 0, 0⟩, .zero, .zero, .zero⟩ }

/-- C7 witness: the theorem at a rejected update (0.5 below the held 1) and
at a committed update (to 3). -/
theorem claim_C7_witness :
    update_max_claim sevenProbe sevenState .admin .CPU (1/2) =
      ⟨sevenState, .belowAllocation, [.maxClaimFailed .admin]⟩ ∧
    (update_max_claim sevenProbe sevenState .admin .CPU 3).state =
      { sevenState with
          resources := sevenProbe
          max_claim := setCell sevenState.max_claim .admin .CPU 3 } ∧
    (update_max_claim sevenProbe sevenState .admin .CPU 3).result.isSuccess = true := by
  refine ⟨(claim_C7 sevenProbe sevenState .admin .CPU (1/2)).2.1 ?_, ?_⟩
  · norm_num [sevenState, cell, UserMap.get, ResVec.get]
  · have h := (claim_C7 sevenProbe sevenState .admin .CPU 3).2.2
      (by norm_num [sevenState, cell, UserMap.get, ResVec.get])
    exact ⟨h.1, h.2.1⟩

end ResGuard
